import Mathlib

/-!
Verification of the pomodoro study-timer state machine of the
EduSync Smart Study Dashboard (the `StudyTimer` React component).

The component's state hooks become fields of `TimerState`; each event
handler (`handleStart`, `handlePause`, `handleStop`, `handleReset`,
`handleSessionComplete`) becomes a pure state-transition function.
The once-per-second interval callback becomes `tick`.  The database
insert performed by `handleSessionComplete` is modelled by passing the
session store as a function argument and by returning the list of
records handed to it together with the list of error-log messages, so
that theorems can speak about what was persisted and what was logged.
Machine numbers are modelled as `Int` for second/minute counts (so that
non-negativity is a real property, not a typing artifact) and as `Nat`
for the session counter.
-/

/-- The `currentSession` React state: `'study' | 'break' | 'longBreak'`. -/
inductive Phase where
  | study
  | shortBreak
  | longBreak
deriving DecidableEq, Repr

/-- The `TimerSettings` interface of the component. -/
structure TimerSettings where
  studyDuration : Int
  breakDuration : Int
  longBreakDuration : Int
  sessionsUntilLongBreak : Nat
deriving DecidableEq, Repr

/-- The row inserted into `study_sessions` on completion of a study
phase (`duration`, `type`, optional `subject`, `user_id`; the
`timestamp` column is filled by the database and is not modelled). -/
structure PersistedStudySession where
  duration : Int
  type : String
  subject : Option String
  user_id : String
deriving DecidableEq, Repr

/-- The React state hooks of the `StudyTimer` component, plus the
authenticated user from the auth context (`user?.id`). -/
structure TimerState where
  isRunning : Bool
  isPaused : Bool
  timeLeft : Int
  currentSession : Phase
  sessionCount : Nat
  subject : String
  settings : TimerSettings
  user : Option String
deriving DecidableEq, Repr

/-- `getCurrentSessionDuration`: duration in minutes of the current phase. -/
def getCurrentSessionDuration (s : TimerState) : Int :=
  match s.currentSession with
  | Phase.study => s.settings.studyDuration
  | Phase.shortBreak => s.settings.breakDuration
  | Phase.longBreak => s.settings.longBreakDuration

/-- `handleStart`: sets `isRunning := true`, `isPaused := false`. -/
def handleStart (s : TimerState) : TimerState :=
  { s with isRunning := true, isPaused := false }

/-- `handlePause`: toggles `isPaused`. -/
def handlePause (s : TimerState) : TimerState :=
  { s with isPaused := !s.isPaused }

/-- `handleStop`: stops the timer and resets `timeLeft` to the full
duration of the current phase. -/
def handleStop (s : TimerState) : TimerState :=
  { s with isRunning := false, isPaused := false,
           timeLeft := getCurrentSessionDuration s * 60 }

/-- `handleReset`: stops the timer, resets `timeLeft`, returns to the
study phase and zeroes the session counter.  Note that, exactly as in
the source, `timeLeft` is computed with `getCurrentSessionDuration`
reading the phase *before* the reset (the React setters all read the
render-time closure values). -/
def handleReset (s : TimerState) : TimerState :=
  { s with isRunning := false, isPaused := false,
           timeLeft := getCurrentSessionDuration s * 60,
           currentSession := Phase.study,
           sessionCount := 0 }

/-- The record `handleSessionComplete` hands to
`supabase.from('study_sessions').insert(...)`: built only when the
finished phase is `study` and a user is authenticated; `subject` is
`subject || undefined`, i.e. omitted when the text field is empty. -/
def sessionRecord (s : TimerState) : Option PersistedStudySession :=
  match s.user with
  | none => none
  | some uid =>
      if s.currentSession = Phase.study then
        some { duration := s.settings.studyDuration,
               type := "study",
               subject := if s.subject = "" then none else some s.subject,
               user_id := uid }
      else
        none

/-- `handleSessionComplete`, with the session store passed in as a
function.  Returns the new timer state, the list of records handed to
the store (the single insert attempt, or nothing), and the list of
error-log messages (`console.error` on a failed insert).  The state
transition mirrors the source: stop the countdown; if a study phase
finished, increment the counter and go to the long break exactly when
the incremented counter is divisible by `sessionsUntilLongBreak`,
otherwise to the short break; after a break, return to study; in every
case set `timeLeft` to the new phase's duration in seconds. -/
def handleSessionComplete (store : PersistedStudySession → Except String Unit)
    (s : TimerState) : TimerState × List PersistedStudySession × List String :=
  let inserted : List PersistedStudySession :=
    match sessionRecord s with
    | some r => [r]
    | none => []
  let logs : List String :=
    match sessionRecord s with
    | some r =>
        match store r with
        | Except.error e => ["Error saving session: " ++ e]
        | Except.ok _ => []
    | none => []
  let base := { s with isRunning := false, isPaused := false }
  let s1 :=
    if s.currentSession = Phase.study then
      let newSessionCount := s.sessionCount + 1
      if newSessionCount % s.settings.sessionsUntilLongBreak = 0 then
        { base with sessionCount := newSessionCount,
                    currentSession := Phase.longBreak,
                    timeLeft := s.settings.longBreakDuration * 60 }
      else
        { base with sessionCount := newSessionCount,
                    currentSession := Phase.shortBreak,
                    timeLeft := s.settings.breakDuration * 60 }
    else
      { base with currentSession := Phase.study,
                  timeLeft := s.settings.studyDuration * 60 }
  (s1, inserted, logs)

/-- The state component of `handleSessionComplete` (as shown below it
does not depend on the store's outcome). -/
def sessionComplete (s : TimerState) : TimerState :=
  (handleSessionComplete (fun _ => Except.ok ()) s).1

/-- One firing of the interval callback: active only while running and
not paused; when `timeLeft` would reach 0 (`prev <= 1`) it fires
`handleSessionComplete` (which also sets the next phase's `timeLeft`),
otherwise it decrements `timeLeft` by one. -/
def tick (store : PersistedStudySession → Except String Unit)
    (s : TimerState) : TimerState × List PersistedStudySession × List String :=
  if s.isRunning = true ∧ s.isPaused = false then
    if s.timeLeft ≤ 1 then
      handleSessionComplete store s
    else
      ({ s with timeLeft := s.timeLeft - 1 }, [], [])
  else
    (s, [], [])

/-- The state component of a tick (independent of the store outcome). -/
def tickState (s : TimerState) : TimerState :=
  (tick (fun _ => Except.ok ()) s).1

/-- The study-duration choices offered by the settings select. -/
def studyOptions : List Int := [15, 25, 30, 45, 60]

/-- The break-duration choices offered by the settings select. -/
def breakOptions : List Int := [5, 10, 15]

/-- The long-break choices offered by the settings select. -/
def longBreakOptions : List Int := [15, 20, 30]

/-- The user-interface events that can mutate the timer state.  The
settings selects and the subject input are `disabled={isRunning}`, the
Start button is rendered only while stopped and the Pause/Resume button
only while running; those guards are part of `step` below. -/
inductive Event where
  | start
  | pauseClick
  | stop
  | reset
  | tickFire
  | setStudy (v : Int)
  | setBreak (v : Int)
  | setLong (v : Int)
  | setSubject (str : String)
deriving DecidableEq, Repr

/-- One UI event applied to the state, with the interface-level guards
of the component (buttons rendered conditionally, inputs disabled while
running, select values limited to the offered options). -/
def step (e : Event) (s : TimerState) : TimerState :=
  match e with
  | Event.start => if s.isRunning then s else handleStart s
  | Event.pauseClick => if s.isRunning then handlePause s else s
  | Event.stop => handleStop s
  | Event.reset => handleReset s
  | Event.tickFire => tickState s
  | Event.setStudy v =>
      if s.isRunning = false ∧ v ∈ studyOptions then
        { s with settings := { s.settings with studyDuration := v } }
      else s
  | Event.setBreak v =>
      if s.isRunning = false ∧ v ∈ breakOptions then
        { s with settings := { s.settings with breakDuration := v } }
      else s
  | Event.setLong v =>
      if s.isRunning = false ∧ v ∈ longBreakOptions then
        { s with settings := { s.settings with longBreakDuration := v } }
      else s
  | Event.setSubject str =>
      if s.isRunning = false ∧ s.currentSession = Phase.study then
        { s with subject := str }
      else s

/-- The initial hook values of the component: stopped, 25 minutes on
the clock, study phase, zero completed sessions, default settings
`{25, 5, 15, 4}`. -/
def initState (u : Option String) : TimerState :=
  { isRunning := false, isPaused := false, timeLeft := 25 * 60,
    currentSession := Phase.study, sessionCount := 0, subject := "",
    settings := { studyDuration := 25, breakDuration := 5,
                  longBreakDuration := 15, sessionsUntilLongBreak := 4 },
    user := u }

/-- States reachable from the initial state through UI events. -/
inductive Reachable : TimerState → Prop where
  | init (u : Option String) : Reachable (initState u)
  | next (e : Event) (s : TimerState) : Reachable s → Reachable (step e s)

/-- The three configurable durations are positive. -/
def GoodSettings (st : TimerSettings) : Prop :=
  0 < st.studyDuration ∧ 0 < st.breakDuration ∧ 0 < st.longBreakDuration

instance (st : TimerSettings) : Decidable (GoodSettings st) := by
  unfold GoodSettings; infer_instance

/-- Iterated phase completions. -/
def completions (s : TimerState) : Nat → TimerState
  | 0 => s
  | n + 1 => sessionComplete (completions s n)

/-! ### Helper lemmas -/

lemma sessionComplete_eq (s : TimerState) :
    sessionComplete s =
      if s.currentSession = Phase.study then
        if (s.sessionCount + 1) % s.settings.sessionsUntilLongBreak = 0 then
          { s with isRunning := false, isPaused := false,
                   sessionCount := s.sessionCount + 1,
                   currentSession := Phase.longBreak,
                   timeLeft := s.settings.longBreakDuration * 60 }
        else
          { s with isRunning := false, isPaused := false,
                   sessionCount := s.sessionCount + 1,
                   currentSession := Phase.shortBreak,
                   timeLeft := s.settings.breakDuration * 60 }
      else
        { s with isRunning := false, isPaused := false,
                 currentSession := Phase.study,
                 timeLeft := s.settings.studyDuration * 60 } := by
  unfold sessionComplete handleSessionComplete
  dsimp only

lemma sessionComplete_isRunning (s : TimerState) :
    (sessionComplete s).isRunning = false := by
  rw [sessionComplete_eq]; split_ifs <;> rfl

lemma sessionComplete_settings (s : TimerState) :
    (sessionComplete s).settings = s.settings := by
  rw [sessionComplete_eq]; split_ifs <;> rfl

lemma handleSessionComplete_fst (store : PersistedStudySession → Except String Unit)
    (s : TimerState) :
    (handleSessionComplete store s).1 = sessionComplete s := by
  unfold sessionComplete handleSessionComplete
  rfl

lemma tickState_not_running (s : TimerState) (h : s.isRunning = false) :
    tickState s = s := by
  unfold tickState tick
  simp [h]

/-! ### Claim theorems -/

/-- Claim C6: whatever the session store returns, the state produced by
`handleSessionComplete` is exactly the success-case state, and exactly
the same single insert attempt is made (no retry); on a failing store
the only additional effect is one error-log message. -/
theorem sessionComplete_ignores_store_outcome
    (store store2 : PersistedStudySession → Except String Unit) (s : TimerState) :
    (handleSessionComplete store s).1 = sessionComplete s ∧
    (handleSessionComplete store s).2.1 = (handleSessionComplete store2 s).2.1 ∧
    ((handleSessionComplete store s).1.currentSession = (sessionComplete s).currentSession ∧
      (handleSessionComplete store s).1.sessionCount = (sessionComplete s).sessionCount ∧
      (handleSessionComplete store s).1.timeLeft = (sessionComplete s).timeLeft) := by
  refine ⟨handleSessionComplete_fst store s, ?_, ?_⟩
  · unfold handleSessionComplete
    dsimp only
  · rw [handleSessionComplete_fst store s]
    exact ⟨rfl, rfl, rfl⟩

/-- Claim C7: `handleStop` stops the timer (running and paused both
false), resets `timeLeft` to the full duration of the current phase and
changes nothing else; `handleStart` after it resumes the same phase at
its full duration. -/
theorem stop_then_start_resumes_same_phase (s : TimerState) :
    (handleStop s).isRunning = false ∧
    (handleStop s).isPaused = false ∧
    (handleStop s).timeLeft = getCurrentSessionDuration s * 60 ∧
    (handleStop s).currentSession = s.currentSession ∧
    (handleStop s).sessionCount = s.sessionCount ∧
    (handleStop s).settings = s.settings ∧
    (handleStop s).subject = s.subject ∧
    (handleStart (handleStop s)).isRunning = true ∧
    (handleStart (handleStop s)).isPaused = false ∧
    (handleStart (handleStop s)).currentSession = s.currentSession ∧
    (handleStart (handleStop s)).sessionCount = s.sessionCount ∧
    (handleStart (handleStop s)).timeLeft = getCurrentSessionDuration s * 60 := by
  refine ⟨rfl, rfl, rfl, rfl, rfl, rfl, rfl, rfl, rfl, rfl, rfl, rfl⟩

/-- Claim C8: `handlePause` twice is the identity (Pause then Resume
restores the whole state, in particular `timeLeft`, the phase and the
session counter), and while paused no tick changes the state, so any
number of tick firings between the Pause and the Resume is harmless. -/
theorem pause_resume_roundtrip (s : TimerState) (n : Nat) :
    handlePause (handlePause s) = s ∧
    (s.isRunning = true → s.isPaused = false →
      tickState^[n] (handlePause s) = handlePause s ∧
      handlePause (tickState^[n] (handlePause s)) = s) := by
  have hpp : handlePause (handlePause s) = s := by
    unfold handlePause
    cases s
    simp
  refine ⟨hpp, fun _hrun hpaus => ?_⟩
  have hfix : tickState (handlePause s) = handlePause s := by
    unfold tickState tick handlePause
    simp [hpaus]
  have hiter : tickState^[n] (handlePause s) = handlePause s := by
    induction n with
    | zero => rfl
    | succ k ih => rw [Function.iterate_succ_apply, hfix, ih]
  exact ⟨hiter, by rw [hiter, hpp]⟩

/-- Witness for `pause_resume_roundtrip` at a concrete running state. -/
theorem pause_resume_roundtrip_witness :
    handlePause (handlePause (handleStart (initState none))) = handleStart (initState none) ∧
    tickState^[3] (handlePause (handleStart (initState none))) =
      handlePause (handleStart (initState none)) := by
  have h := pause_resume_roundtrip (handleStart (initState none)) 3
  exact ⟨h.1, (h.2 rfl rfl).1⟩

/-- Claim C9 counterexample: on a running-and-paused state, `handleStart`
is not a no-op — it clears `isPaused`. -/
theorem start_not_noop_when_paused :
    (handlePause (handleStart (initState none))).isRunning = true ∧
    (handlePause (handleStart (initState none))).isPaused = true ∧
    handleStart (handlePause (handleStart (initState none))) ≠
      handlePause (handleStart (initState none)) := by
  refine ⟨rfl, rfl, ?_⟩
  intro h
  have := congrArg TimerState.isPaused h
  simp [handleStart, handlePause, initState] at this

/-- Claim C9 (amended): `handleStart` sets `isRunning := true` and
`isPaused := false`; from a stopped state it starts the timer unpaused,
on a running unpaused state it is a no-op, and on a running-and-paused
state it changes `isPaused` only (acting as a resume). -/
theorem start_behavior (s : TimerState) :
    (s.isRunning = false → handleStart s = { s with isRunning := true, isPaused := false }) ∧
    (s.isRunning = true → s.isPaused = false → handleStart s = s) ∧
    (s.isRunning = true → s.isPaused = true →
      handleStart s = { s with isPaused := false }) := by
  refine ⟨fun _ => rfl, fun hr hp => ?_, fun hr hp => ?_⟩
  · unfold handleStart
    cases s
    simp_all
  · unfold handleStart
    cases s
    simp_all

/-- Witness for `start_behavior` at concrete stopped and running states. -/
theorem start_behavior_witness :
    handleStart (initState none) =
      { initState none with isRunning := true, isPaused := false } ∧
    handleStart (handleStart (initState none)) = handleStart (initState none) := by
  refine ⟨(start_behavior (initState none)).1 rfl, ?_⟩
  exact (start_behavior (handleStart (initState none))).2.1 rfl rfl

/-- Claim C2: on `SessionComplete`, finishing a study phase increments
the counter and goes to the long break exactly when the incremented
counter is divisible by `sessionsUntilLongBreak` (short break
otherwise); finishing a break returns to study with the counter
unchanged; in every case `timeLeft` becomes the new phase's full
duration in seconds, and the timer is stopped. -/
theorem sessionComplete_transition (s : TimerState) :
    (s.currentSession = Phase.study →
      (sessionComplete s).sessionCount = s.sessionCount + 1 ∧
      (sessionComplete s).currentSession =
        (if (s.sessionCount + 1) % s.settings.sessionsUntilLongBreak = 0 then
          Phase.longBreak else Phase.shortBreak)) ∧
    (s.currentSession ≠ Phase.study →
      (sessionComplete s).currentSession = Phase.study ∧
      (sessionComplete s).sessionCount = s.sessionCount) ∧
    (sessionComplete s).timeLeft =
      getCurrentSessionDuration (sessionComplete s) * 60 ∧
    (sessionComplete s).isRunning = false ∧
    (sessionComplete s).isPaused = false := by
  rw [sessionComplete_eq]
  split_ifs with h1 h2 <;>
    simp_all [getCurrentSessionDuration]

/-- Witness for `sessionComplete_transition`: the first completion from
the initial state (study, counter 0, threshold 4) yields a short break
with counter 1; completing that short break returns to study with the
counter still 1. -/
theorem sessionComplete_transition_witness :
    ((sessionComplete (initState none)).sessionCount = 0 + 1 ∧
      (sessionComplete (initState none)).currentSession =
        (if (0 + 1) % 4 = 0 then Phase.longBreak else Phase.shortBreak)) ∧
    (sessionComplete (sessionComplete (initState none))).currentSession = Phase.study ∧
    (sessionComplete (sessionComplete (initState none))).sessionCount =
      (sessionComplete (initState none)).sessionCount := by
  refine ⟨(sessionComplete_transition (initState none)).1 rfl, ?_⟩
  exact (sessionComplete_transition (sessionComplete (initState none))).2.1 (by decide)

/-- Claim C5: completing a study phase with an authenticated user hands
the store exactly one record, whose `duration` is the configured study
duration and whose `subject` is the subject label when non-empty (and
omitted when empty); completing a break hands the store nothing.  In
particular with subject "Physics" the persisted record carries
`duration = studyDuration` and `subject = "Physics"`. -/
theorem study_completion_persists
    (store : PersistedStudySession → Except String Unit)
    (s : TimerState) (u : String) :
    (s.user = some u → s.currentSession = Phase.study →
      (handleSessionComplete store s).2.1 =
        [{ duration := s.settings.studyDuration,
           type := "study",
           subject := if s.subject = "" then none else some s.subject,
           user_id := u }]) ∧
    (s.currentSession ≠ Phase.study →
      (handleSessionComplete store s).2.1 = []) := by
  constructor
  · intro hu hp
    unfold handleSessionComplete
    dsimp only
    simp [sessionRecord, hu, hp]
  · intro hp
    unfold handleSessionComplete
    dsimp only
    cases hu : s.user <;> simp [sessionRecord, hu, hp]

/-- Witness for `study_completion_persists`: a study completion with
user "u1" and subject "Physics" persists exactly one record with
duration 25 and subject "Physics"; a short-break completion persists
nothing. -/
theorem study_completion_persists_witness :
    (handleSessionComplete (fun _ => Except.ok ())
        { initState (some "u1") with subject := "Physics" }).2.1 =
      [{ duration := 25, type := "study",
         subject := some "Physics", user_id := "u1" }] ∧
    (handleSessionComplete (fun _ => Except.ok ())
        (sessionComplete { initState (some "u1") with subject := "Physics" })).2.1 = [] := by
  constructor
  · have h := (study_completion_persists (fun _ => Except.ok ())
      { initState (some "u1") with subject := "Physics" } "u1").1 rfl rfl
    simpa using h
  · exact (study_completion_persists (fun _ => Except.ok ())
      (sessionComplete { initState (some "u1") with subject := "Physics" }) "u1").2
      (by decide)

/-- Claim C1: evaluation of `handleReset` at a state in the short-break
phase (reached by completing one study session from the initial state,
with the default settings study = 25, break = 5).  Reset stops the
timer, returns to the study phase and zeroes the counter as specified,
but `timeLeft` becomes 5 * 60 = 300 — the *old* phase's duration — and
not `studyMinutes * 60 = 1500`: the source computes `timeLeft` from
`getCurrentSessionDuration()` before the phase is switched to study. -/
theorem reset_during_break_keeps_break_duration :
    (sessionComplete (initState none)).currentSession = Phase.shortBreak ∧
    (handleReset (sessionComplete (initState none))).isRunning = false ∧
    (handleReset (sessionComplete (initState none))).isPaused = false ∧
    (handleReset (sessionComplete (initState none))).currentSession = Phase.study ∧
    (handleReset (sessionComplete (initState none))).sessionCount = 0 ∧
    (handleReset (sessionComplete (initState none))).timeLeft = 5 * 60 ∧
    (sessionComplete (initState none)).settings.studyDuration * 60 = 25 * 60 ∧
    (handleReset (sessionComplete (initState none))).timeLeft ≠
      (sessionComplete (initState none)).settings.studyDuration * 60 := by
  decide

lemma sessionComplete_of_study (t : TimerState) (hp : t.currentSession = Phase.study) :
    (sessionComplete t).sessionCount = t.sessionCount + 1 ∧
    (sessionComplete t).currentSession =
      (if (t.sessionCount + 1) % t.settings.sessionsUntilLongBreak = 0 then
        Phase.longBreak else Phase.shortBreak) ∧
    (sessionComplete t).settings = t.settings := by
  rw [sessionComplete_eq]
  split_ifs <;> simp_all

lemma sessionComplete_of_nonstudy (t : TimerState) (hp : t.currentSession ≠ Phase.study) :
    (sessionComplete t).currentSession = Phase.study ∧
    (sessionComplete t).sessionCount = t.sessionCount ∧
    (sessionComplete t).settings = t.settings := by
  rw [sessionComplete_eq]
  split_ifs with h1 <;> simp_all

lemma completions_even (s : TimerState) (j : Nat) :
    (completions (handleReset s) (2 * j)).currentSession = Phase.study ∧
    (completions (handleReset s) (2 * j)).sessionCount = j ∧
    (completions (handleReset s) (2 * j)).settings = s.settings := by
  induction j with
  | zero => exact ⟨rfl, rfl, rfl⟩
  | succ k ih =>
    obtain ⟨hp, hc, hs⟩ := ih
    have hodd := sessionComplete_of_study (completions (handleReset s) (2 * k)) hp
    have heq : 2 * (k + 1) = (2 * k + 1) + 1 := by ring
    have hstep : completions (handleReset s) (2 * (k + 1)) =
        sessionComplete (completions (handleReset s) (2 * k + 1)) := by
      rw [heq]; rfl
    have hnot : (completions (handleReset s) (2 * k + 1)).currentSession ≠ Phase.study := by
      have h2 := hodd.2.1
      have : completions (handleReset s) (2 * k + 1) =
          sessionComplete (completions (handleReset s) (2 * k)) := rfl
      rw [this, h2]
      split_ifs <;> simp
    have hfin := sessionComplete_of_nonstudy (completions (handleReset s) (2 * k + 1)) hnot
    refine ⟨by rw [hstep]; exact hfin.1, ?_, ?_⟩
    · rw [hstep, hfin.2.1]
      show (sessionComplete (completions (handleReset s) (2 * k))).sessionCount = k + 1
      rw [hodd.1, hc]
    · rw [hstep, hfin.2.2]
      show (sessionComplete (completions (handleReset s) (2 * k))).settings = s.settings
      rw [hodd.2.2, hs]

/-- Claim C3: starting from the state `handleReset` produces, the
even-indexed completion states are in the study phase with counter `j`,
and the `(j+1)`-st study completion (odd index `2j+1`) has counter
`j + 1` and enters the long break exactly when `j + 1` is divisible by
`sessionsUntilLongBreak`, the short break otherwise — the
study/short-break alternation with every `sessionsUntilLongBreak`-th
study followed by the long break, repeating forever.  With the default
settings (threshold 4) study completions 1–3 enter the short break and
the 4th enters the long break with counter 4. -/
theorem phase_cycle (s : TimerState) (j : Nat) :
    (completions (handleReset s) (2 * j)).currentSession = Phase.study ∧
    (completions (handleReset s) (2 * j)).sessionCount = j ∧
    (completions (handleReset s) (2 * j + 1)).sessionCount = j + 1 ∧
    (completions (handleReset s) (2 * j + 1)).currentSession =
      (if (j + 1) % s.settings.sessionsUntilLongBreak = 0 then Phase.longBreak
       else Phase.shortBreak) ∧
    (completions (handleReset (initState none)) 1).currentSession = Phase.shortBreak ∧
    (completions (handleReset (initState none)) 3).currentSession = Phase.shortBreak ∧
    (completions (handleReset (initState none)) 5).currentSession = Phase.shortBreak ∧
    (completions (handleReset (initState none)) 7).currentSession = Phase.longBreak ∧
    (completions (handleReset (initState none)) 7).sessionCount = 4 := by
  obtain ⟨hp, hc, hs⟩ := completions_even s j
  have hodd := sessionComplete_of_study (completions (handleReset s) (2 * j)) hp
  have hoe : completions (handleReset s) (2 * j + 1) =
      sessionComplete (completions (handleReset s) (2 * j)) := rfl
  refine ⟨hp, hc, ?_, ?_, by decide, by decide, by decide, by decide, by decide⟩
  · rw [hoe, hodd.1, hc]
  · rw [hoe, hodd.2.1, hc, hs]

/-! ### Reachability invariant -/

/-- The inductive invariant: the clock is positive and the configured
durations are positive. -/
def TimerInv (s : TimerState) : Prop := 0 < s.timeLeft ∧ GoodSettings s.settings

lemma getCurrentSessionDuration_pos (s : TimerState) (h : GoodSettings s.settings) :
    0 < getCurrentSessionDuration s := by
  obtain ⟨h1, h2, h3⟩ := h
  cases hc : s.currentSession <;> simp [getCurrentSessionDuration, hc] <;> assumption

lemma inv_sessionComplete (s : TimerState) (h : GoodSettings s.settings) :
    TimerInv (sessionComplete s) := by
  obtain ⟨h1, h2, h3⟩ := h
  rw [sessionComplete_eq]
  split_ifs <;> exact ⟨by dsimp only; omega, h1, h2, h3⟩

lemma inv_step (e : Event) (s : TimerState) (h : TimerInv s) : TimerInv (step e s) := by
  obtain ⟨ht, hg⟩ := h
  cases e with
  | start =>
    simp only [step, handleStart]
    split_ifs <;> exact ⟨ht, hg⟩
  | pauseClick =>
    simp only [step, handlePause]
    split_ifs <;> exact ⟨ht, hg⟩
  | stop =>
    simp only [step, handleStop]
    refine ⟨?_, hg⟩
    have := getCurrentSessionDuration_pos s hg
    show 0 < getCurrentSessionDuration s * 60
    omega
  | reset =>
    simp only [step, handleReset]
    refine ⟨?_, hg⟩
    have := getCurrentSessionDuration_pos s hg
    show 0 < getCurrentSessionDuration s * 60
    omega
  | tickFire =>
    show TimerInv (tickState s)
    unfold tickState tick
    split_ifs with h1 h2
    · rw [handleSessionComplete_fst]
      exact inv_sessionComplete s hg
    · exact ⟨by dsimp only; omega, hg⟩
    · exact ⟨ht, hg⟩
  | setStudy v =>
    simp only [step]
    split_ifs with hv
    · obtain ⟨hrun, hmem⟩ := hv
      obtain ⟨h1, h2, h3⟩ := hg
      have hvpos : 0 < v := by
        simp [studyOptions] at hmem
        rcases hmem with h | h | h | h | h <;> omega
      exact ⟨ht, hvpos, h2, h3⟩
    · exact ⟨ht, hg⟩
  | setBreak v =>
    simp only [step]
    split_ifs with hv
    · obtain ⟨hrun, hmem⟩ := hv
      obtain ⟨h1, h2, h3⟩ := hg
      have hvpos : 0 < v := by
        simp [breakOptions] at hmem
        rcases hmem with h | h | h <;> omega
      exact ⟨ht, h1, hvpos, h3⟩
    · exact ⟨ht, hg⟩
  | setLong v =>
    simp only [step]
    split_ifs with hv
    · obtain ⟨hrun, hmem⟩ := hv
      obtain ⟨h1, h2, h3⟩ := hg
      have hvpos : 0 < v := by
        simp [longBreakOptions] at hmem
        rcases hmem with h | h | h <;> omega
      exact ⟨ht, h1, h2, hvpos⟩
    · exact ⟨ht, hg⟩
  | setSubject str =>
    simp only [step]
    split_ifs <;> exact ⟨ht, hg⟩

lemma reachable_inv (s : TimerState) (h : Reachable s) : TimerInv s := by
  induction h with
  | init u => exact ⟨by norm_num [initState], by norm_num [initState, GoodSettings]⟩
  | next e t _ ih => exact inv_step e t ih

/-- Claim C4: in every state reachable through the user interface,
`timeLeft` is non-negative (indeed positive); a tick while running and
unpaused with more than one second left decrements `timeLeft` by
exactly one and changes nothing else; and the tick that brings
`timeLeft` to zero performs exactly the session-complete transition,
which stops the countdown, so no further tick fires (a tick on the
resulting state is the identity). -/
theorem tick_countdown :
    (∀ s, Reachable s → 0 ≤ s.timeLeft) ∧
    (∀ s : TimerState, s.isRunning = true → s.isPaused = false → 1 < s.timeLeft →
      tickState s = { s with timeLeft := s.timeLeft - 1 }) ∧
    (∀ s : TimerState, s.isRunning = true → s.isPaused = false → s.timeLeft = 1 →
      tickState s = sessionComplete s ∧
      (tickState s).isRunning = false ∧
      tickState (tickState s) = tickState s) := by
  refine ⟨fun s h => le_of_lt (reachable_inv s h).1, fun s hr hp hl => ?_,
    fun s hr hp hl => ?_⟩
  · unfold tickState tick
    rw [if_pos ⟨hr, hp⟩, if_neg (by omega)]
  · have hcomp : tickState s = sessionComplete s := by
      unfold tickState tick
      rw [if_pos ⟨hr, hp⟩, if_pos (by omega)]
      exact handleSessionComplete_fst _ s
    refine ⟨hcomp, ?_, ?_⟩
    · rw [hcomp]; exact sessionComplete_isRunning s
    · rw [hcomp]
      exact tickState_not_running _ (sessionComplete_isRunning s)

/-- Witness for `tick_countdown` at concrete states: the initial state
is reachable with a non-negative clock; one tick on the started initial
state decrements the clock; a tick at one remaining second performs the
session-complete transition and stops the timer. -/
theorem tick_countdown_witness :
    0 ≤ (initState none).timeLeft ∧
    tickState (handleStart (initState none)) =
      { handleStart (initState none) with
          timeLeft := (handleStart (initState none)).timeLeft - 1 } ∧
    tickState { handleStart (initState none) with timeLeft := 1 } =
      sessionComplete { handleStart (initState none) with timeLeft := 1 } ∧
    (tickState { handleStart (initState none) with timeLeft := 1 }).isRunning = false := by
  refine ⟨tick_countdown.1 (initState none) (Reachable.init none), ?_, ?_, ?_⟩
  · exact tick_countdown.2.1 (handleStart (initState none)) rfl rfl (by decide)
  · exact (tick_countdown.2.2 { handleStart (initState none) with timeLeft := 1 }
      rfl rfl rfl).1
  · exact (tick_countdown.2.2 { handleStart (initState none) with timeLeft := 1 }
      rfl rfl rfl).2.1

/-- Claim C10: while stopped, choosing a new duration in any of the
three selects updates only that settings field — `timeLeft`, the phase,
the counter and everything else are untouched, and a subsequent Start
still does not touch `timeLeft` — while the next Stop (or Reset, in the
study phase) recomputes `timeLeft` from the new duration. -/
theorem settings_change_frame (s : TimerState) (v : Int) :
    (s.isRunning = false → v ∈ studyOptions →
      step (Event.setStudy v) s =
        { s with settings := { s.settings with studyDuration := v } } ∧
      (step (Event.setStudy v) s).timeLeft = s.timeLeft ∧
      (handleStart (step (Event.setStudy v) s)).timeLeft = s.timeLeft ∧
      (handleStop (step (Event.setStudy v) s)).timeLeft =
        getCurrentSessionDuration (step (Event.setStudy v) s) * 60 ∧
      (s.currentSession = Phase.study →
        (handleStop (step (Event.setStudy v) s)).timeLeft = v * 60 ∧
        (handleReset (step (Event.setStudy v) s)).timeLeft = v * 60)) ∧
    (s.isRunning = false → v ∈ breakOptions →
      step (Event.setBreak v) s =
        { s with settings := { s.settings with breakDuration := v } } ∧
      (step (Event.setBreak v) s).timeLeft = s.timeLeft) ∧
    (s.isRunning = false → v ∈ longBreakOptions →
      step (Event.setLong v) s =
        { s with settings := { s.settings with longBreakDuration := v } } ∧
      (step (Event.setLong v) s).timeLeft = s.timeLeft) := by
  refine ⟨fun hr hv => ?_, fun hr hv => ?_, fun hr hv => ?_⟩
  · have hstep : step (Event.setStudy v) s =
        { s with settings := { s.settings with studyDuration := v } } := by
      simp only [step]
      rw [if_pos ⟨hr, hv⟩]
    refine ⟨hstep, by rw [hstep], by rw [hstep]; rfl, rfl, fun hphase => ?_⟩
    constructor
    · show getCurrentSessionDuration (step (Event.setStudy v) s) * 60 = v * 60
      rw [hstep]
      simp [getCurrentSessionDuration, hphase]
    · show getCurrentSessionDuration (step (Event.setStudy v) s) * 60 = v * 60
      rw [hstep]
      simp [getCurrentSessionDuration, hphase]
  · have hstep : step (Event.setBreak v) s =
        { s with settings := { s.settings with breakDuration := v } } := by
      simp only [step]
      rw [if_pos ⟨hr, hv⟩]
    exact ⟨hstep, by rw [hstep]⟩
  · have hstep : step (Event.setLong v) s =
        { s with settings := { s.settings with longBreakDuration := v } } := by
      simp only [step]
      rw [if_pos ⟨hr, hv⟩]
    exact ⟨hstep, by rw [hstep]⟩

/-- Witness for `settings_change_frame`: from the stopped initial state,
selecting 45 study minutes leaves the 1500-second clock unchanged, and
the next Stop shows 45 * 60 = 2700; selecting 10 break minutes or a
20-minute long break likewise leaves the clock unchanged. -/
theorem settings_change_frame_witness :
    (step (Event.setStudy 45) (initState none)).timeLeft = (initState none).timeLeft ∧
    (handleStop (step (Event.setStudy 45) (initState none))).timeLeft = 45 * 60 ∧
    (handleReset (step (Event.setStudy 45) (initState none))).timeLeft = 45 * 60 ∧
    (step (Event.setBreak 10) (initState none)).timeLeft = (initState none).timeLeft ∧
    (step (Event.setLong 20) (initState none)).timeLeft = (initState none).timeLeft := by
  have h1 := (settings_change_frame (initState none) 45).1 rfl (by decide)
  have h2 := (settings_change_frame (initState none) 10).2.1 rfl (by decide)
  have h3 := (settings_change_frame (initState none) 20).2.2 rfl (by decide)
  exact ⟨h1.2.1, (h1.2.2.2.2 rfl).1, (h1.2.2.2.2 rfl).2, h2.2, h3.2⟩
